import Mathlib

/-!
Verification development for codebase.py: a tool that walks a directory
tree, filters paths with gitignore-style patterns, and collects the
surviving regular files.

The program delegates pattern matching to the pathspec library
(PathSpec.from_lines with the gitwildmatch dialect, and
PathSpec.match_file).  Those semantics are embedded here directly:

* a gitwildmatch rule line is parsed (gitWildParse) following
  GitWildMatchPattern.pattern_to_regex: the line is stripped of
  surrounding whitespace; a line starting with a hash, a blank line, and
  the single-slash line yield no pattern; a leading bang negates; the
  line is split on slashes; a rule with no inner slash is prefixed with
  a double-star segment (it matches at any depth) while a rule with an
  inner or leading slash is anchored at the root; a trailing slash turns
  the last (empty) segment into a double-star segment, so the rule
  matches only paths strictly beneath a matching directory; a
  non-negated rule whose last segment is a glob also matches every path
  beneath a matching entry (pathspec appends an optional descendant
  suffix to the regex only when the rule is non-negated).
  Backslash escapes and bracket character classes, which no claim
  exercises, are not modelled; lines on which pathspec raises
  GitWildMatchPatternError (for example a lone bang) are modelled as
  yielding no pattern.
* matching a compiled rule against a slash-separated path string is
  expressed segment-wise (matchSegs, globMatch) instead of via the
  generated regular expression: a glob segment matches one path segment
  with star matching any run of characters inside the segment (the
  regex class excluding the slash, which cannot occur inside a
  segment) and the question mark matching one character; a double-star
  segment in leading or middle position consumes any number of whole
  segments, and in final position consumes at least one segment.
* PathSpec.match_file folds over the compiled rules in order with a
  Boolean state starting at false; every rule that matches the path
  overwrites the state with its inclusion flag (true for a normal rule,
  false for a negated rule); null rules are skipped.  The final state is
  returned: pure last-match-wins.

The tree walk (gather_files_to_include), the ignore-file loading
(load_gitignore) and the main control flow (mainRun) are translated from
src/codebase.py.  Paths are modelled as lists of name components (lists
of characters); the platform separator is an explicit parameter, since
os.sep is a single character on every supported platform.
-/

/-- Whitespace as recognised by the strip method of Python strings. -/
def pyIsSpace (c : Char) : Bool :=
  c = ' ' || c = '\t' || c = '\n' || c = '\r' || c = '\x0b' || c = '\x0c'

/-- Python str.strip: drop whitespace from both ends. -/
def stripChars (s : List Char) : List Char :=
  ((s.dropWhile pyIsSpace).reverse.dropWhile pyIsSpace).reverse

/-- Python str.split on the slash character: sections between slashes,
including empty ones (splitting the empty string gives one empty
section, as in Python). -/
def splitSlash : List Char → List (List Char)
| [] => [[]]
| c :: cs =>
  if c = '/' then [] :: splitSlash cs
  else
    match splitSlash cs with
    | [] => [[c]]
    | s :: rest => (c :: s) :: rest

/-- Rendering of a pathlib path: components joined by the platform
separator character (str of a PurePath). -/
def pyIntercalate (sep : Char) : List (List Char) → List Char
| [] => []
| [c] => c
| c :: rest => c ++ sep :: pyIntercalate sep rest

/-- Python str.replace with a one-character needle, as in
str(relative_path).replace(os.sep, slash): every occurrence of the
separator character becomes a forward slash. -/
def pySepReplace (sep : Char) (s : List Char) : List Char :=
  s.map (fun c => if c = sep then '/' else c)

/-- The normalized relative-path string built at line 47 of
codebase.py: the native rendering of the components with the platform
separator replaced by the forward slash. -/
def matchedStr (sep : Char) (comps : List (List Char)) : List Char :=
  pySepReplace sep (pyIntercalate sep comps)

/-- Python file.readlines on text content: split into lines, each
keeping its trailing newline (text mode has already translated platform
line endings to the newline character). -/
def pyReadlines : List Char → List (List Char)
| [] => []
| c :: cs =>
  if c = '\n' then [c] :: pyReadlines cs
  else
    match pyReadlines cs with
    | [] => [[c]]
    | l :: ls => (c :: l) :: ls

/-- Glob match of one pattern segment against one path segment,
following pathspec's per-segment translation: star matches any run of
characters (segments contain no slash, so the slash-excluding regex
class is equivalent), question mark matches exactly one character, any
other character matches itself.  Bracket classes and backslash escapes
are outside the modelled fragment (no claim uses them). -/
def globMatch : List Char → List Char → Bool
| [], s => s.isEmpty
| c :: ps, s =>
  if c = '*' then
    globMatch ps s ||
      (match s with
       | [] => false
       | _ :: t => globMatch (c :: ps) t)
  else
    match s with
    | [] => false
    | d :: t => (if c = '?' then true else c = d) && globMatch ps t
termination_by ps s => (s.length, ps.length)

/-- A compiled pattern segment: a double-star segment or a glob over one
path segment. -/
inductive Seg where
| ds : Seg
| glob : List Char → Seg
deriving DecidableEq, Repr

/-- Matching a segment list against a path (a list of path segments),
mirroring the regular expression pathspec generates: a leading or
middle double-star consumes any number of whole segments; a final
double-star requires at least one remaining segment (the generated
regex is dot-plus alone, or slash dot-star after a prefix); a glob
segment consumes exactly one path segment. -/
def matchSegs : List Seg → List (List Char) → Bool
| [], path => path.isEmpty
| Seg.ds :: rest, path =>
  if rest.isEmpty then !path.isEmpty
  else
    matchSegs rest path ||
      (match path with
       | [] => false
       | _ :: t => matchSegs (Seg.ds :: rest) t)
| Seg.glob g :: rest, path =>
  match path with
  | [] => false
  | s :: t => globMatch g s && matchSegs rest t
termination_by ps path => (path.length, ps.length)

/-- A compiled gitwildmatch rule: the inclusion flag (false for a
negated rule), the segment list, and whether a final glob segment also
matches descendant paths (pathspec appends the optional descendant
regex suffix exactly when the rule is non-negated and its last segment
is not a double-star). -/
structure ParsedPattern where
  inc : Bool
  segs : List Seg
  matchDesc : Bool
deriving DecidableEq, Repr

/-- A compiled rule matches a path when its segments match the whole
path, or, for a rule carrying the descendant suffix, when its segments
match a proper prefix of the path (at least one segment follows). -/
def patternMatch (p : ParsedPattern) (path : List (List Char)) : Bool :=
  matchSegs p.segs path || (p.matchDesc && matchSegs (p.segs ++ [Seg.ds]) path)

/-- The double-star segment text. -/
def dstar : List Char := ['*', '*']

/-- Anchoring normalization from pattern_to_regex: a leading empty
section (the rule began with a slash) is dropped and the rule is
anchored; a rule of one section, or of one section plus a trailing
empty one, is prefixed with a double-star section so it matches at any
depth; a rule with an inner slash is left anchored. -/
def anchorNorm : List (List Char) → List (List Char)
| [] => []
| [] :: rest => rest
| [s] => if s = dstar then [s] else dstar :: [s]
| [s, t] => if t = [] ∧ ¬s = dstar then dstar :: [s, t] else [s, t]
| segs => segs

/-- Trailing-slash normalization from pattern_to_regex: a final empty
section (the rule ended with a slash) becomes a double-star section, so
the rule matches only paths strictly beneath a matching directory. -/
def dirNorm (segs : List (List Char)) : List (List Char) :=
  if 2 ≤ segs.length ∧ segs.getLast? = some [] then segs.dropLast ++ [dstar] else segs

/-- Section text to compiled segment. -/
def toSeg (s : List Char) : Seg := if s = dstar then Seg.ds else Seg.glob s

/-- GitWildMatchPattern.pattern_to_regex, restricted to the modelled
fragment: returns none for a null rule (blank line, comment line, the
single-slash line, and lines on which pathspec raises). -/
def gitWildParse (line : List Char) : Option ParsedPattern :=
  let p := stripChars line
  if p.head? = some '#' then none
  else if p = ['/'] then none
  else if p = [] then none
  else
    let inc := !(p.head? == some '!')
    let q := if p.head? == some '!' then p.tail else p
    match anchorNorm (splitSlash q) with
    | [] => none
    | s :: ss =>
      let segs := dirNorm (s :: ss)
      some { inc := inc, segs := segs.map toSeg,
             matchDesc := inc && !(segs.getLast? == some dstar) }

/-- A compiled pattern set: one entry per input line, null lines
included as none, as PathSpec keeps them. -/
abbrev PatternSet := List (Option ParsedPattern)

/-- PathSpec.from_lines with the gitwildmatch dialect. -/
def from_lines (lines : List (List Char)) : PatternSet :=
  lines.map gitWildParse

/-- One step of PathSpec.match_file: a null rule leaves the state, a
matching rule overwrites the state with its inclusion flag, a
non-matching rule leaves the state. -/
def matchStep (path : List (List Char)) (st : Bool) (p? : Option ParsedPattern) : Bool :=
  match p? with
  | none => st
  | some p => if patternMatch p path then p.inc else st

/-- PathSpec.match_file on a slash-separated path given as its segment
list: fold the rules in order starting from false; the final state is
returned (true means the file is ignored). -/
def match_file (ps : PatternSet) (path : List (List Char)) : Bool :=
  ps.foldl (matchStep path) false

/-- The default ignore lines appended by load_gitignore (line 34 of
codebase.py). -/
def default_ignores : List (List Char) :=
  [".git/".data, "__pycache__/".data, "*.pyc".data, ".DS_Store".data]

/-- load_gitignore from codebase.py: the lines of the root gitignore
file when it exists (none models a missing file, giving the empty line
list), followed by the default ignore lines, compiled by from_lines. -/
def load_gitignore (content : Option (List Char)) : PatternSet :=
  from_lines ((match content with | none => [] | some c => pyReadlines c) ++ default_ignores)

/-- The kind of a filesystem entry as seen by the walker.  A symlink
records whether it resolves, through any chain of links, to a regular
file; Path.is_file follows links, so that is the only fact about the
link the walk observes.  Symlinks resolving to directories are treated
as non-files here and their targets are not traversed (the walk models
one directory snapshot of plain entries). -/
inductive FileKind where
| regular : FileKind
| directory : FileKind
| device : FileKind
| socket : FileKind
| symlink : Bool → FileKind
deriving DecidableEq, Repr

/-- pathlib Path.is_file: true for a regular file and for a symlink that
resolves to a regular file; false for directories, devices, sockets and
broken links. -/
def isFile : FileKind → Bool
| FileKind.regular => true
| FileKind.symlink b => b
| _ => false

/-- One entry yielded by root_dir.rglob: its path components relative
to the root (rglob yields paths under the root, so the entry's path
object is the root followed by these components) and its kind. -/
structure FSEntry where
  relComps : List (List Char)
  kind : FileKind
deriving DecidableEq, Repr

/-- pathlib PurePath.relative_to: strips the other path off the front,
failing (a raised ValueError, modelled as none) when it is not a
prefix. -/
def relativeTo : List (List Char) → List (List Char) → Option (List (List Char))
| p, [] => some p
| [], _ :: _ => none
| q :: qs, r :: rs => if r = q then relativeTo qs rs else none

/-- gather_files_to_include from codebase.py: for each entry yielded by
rglob, when is_file holds, compute the path relative to the root,
normalize it to the forward-slash string, and keep the pair of the
entry's path object and the (native) relative path exactly when
match_file returns false, preserving traversal order.  The none branch
of relative_to is unreachable (every rglob path extends the root); in
the source it would raise. -/
def gather_files_to_include (sep : Char) (root : List (List Char)) (spec : PatternSet) :
    List FSEntry → List (List (List Char) × List (List Char))
| [] => []
| e :: rest =>
  if isFile e.kind then
    match relativeTo (root ++ e.relComps) root with
    | some rel =>
      if match_file spec (splitSlash (matchedStr sep rel)) then
        gather_files_to_include sep root spec rest
      else
        (root ++ e.relComps, rel) :: gather_files_to_include sep root spec rest
    | none => gather_files_to_include sep root spec rest
  else gather_files_to_include sep root spec rest

/-- Outcome of one run of main: the missing-directory error, the
no-files error, or success with the count of included files (only the
success path writes the output document). -/
inductive MainOutcome where
| errNotFound : MainOutcome
| errNoFiles : MainOutcome
| success : Nat → MainOutcome
deriving DecidableEq, Repr

/-- The decision structure of main (lines 112 to 131 of codebase.py):
stop with an error when the root is not a directory; otherwise build
the pattern set, gather the files, stop with an error when none were
gathered, and otherwise write the output. -/
def mainRun (rootIsDir : Bool) (sep : Char) (root : List (List Char))
    (gitignoreContent : Option (List Char)) (snap : List FSEntry) : MainOutcome :=
  if !rootIsDir then MainOutcome.errNotFound
  else
    let spec := load_gitignore gitignoreContent
    let files := gather_files_to_include sep root spec snap
    if files.isEmpty then MainOutcome.errNoFiles else MainOutcome.success files.length

/-- Whether an outcome writes the output document: only success does
(write_codebase_to_file is reached only on the success path). -/
def producesOutput : MainOutcome → Bool
| MainOutcome.success _ => true
| _ => false

/-- Text of a string literal as a character list, for concrete
instances. -/
def toL (s : String) : List Char := s.data

/- ### Helper lemmas -/

theorem relativeTo_append (root x : List (List Char)) :
    relativeTo (root ++ x) root = some x := by
  induction root with
  | nil => simp [relativeTo]
  | cons r rs ih => simp [relativeTo, ih]

theorem gather_eq (sep : Char) (root : List (List Char)) (spec : PatternSet)
    (snap : List FSEntry) :
    gather_files_to_include sep root spec snap =
      (snap.filter (fun e => isFile e.kind &&
        !(match_file spec (splitSlash (matchedStr sep e.relComps))))).map
        (fun e => (root ++ e.relComps, e.relComps)) := by
  induction snap with
  | nil => rfl
  | cons e rest ih =>
    simp only [gather_files_to_include, relativeTo_append]
    cases hf : isFile e.kind
    · simp [List.filter_cons, hf, ih]
    · cases hm : match_file spec (splitSlash (matchedStr sep e.relComps)) <;>
        simp [List.filter_cons, hf, hm, ih]

theorem mem_gather {sep : Char} {root : List (List Char)} {spec : PatternSet}
    {snap : List FSEntry} {x : List (List Char) × List (List Char)}
    (hx : x ∈ gather_files_to_include sep root spec snap) :
    ∃ e ∈ snap, isFile e.kind = true ∧
      match_file spec (splitSlash (matchedStr sep e.relComps)) = false ∧
      x = (root ++ e.relComps, e.relComps) := by
  rw [gather_eq] at hx
  rcases List.mem_map.mp hx with ⟨e, he, hxe⟩
  rcases List.mem_filter.mp he with ⟨hmem, hpred⟩
  have hp : isFile e.kind = true ∧
      match_file spec (splitSlash (matchedStr sep e.relComps)) = false := by
    simpa using hpred
  exact ⟨e, hmem, hp.1, hp.2, hxe.symm⟩

theorem foldl_matchStep_skip_none (path : List (List Char)) (l₁ l₂ : PatternSet)
    (st : Bool) :
    (l₁ ++ none :: l₂).foldl (matchStep path) st = (l₁ ++ l₂).foldl (matchStep path) st := by
  simp [List.foldl_append, matchStep]

theorem foldl_matchStep_stays_true (path : List (List Char)) (l : PatternSet)
    (h : ∀ pp : ParsedPattern, some pp ∈ l → pp.inc = false → patternMatch pp path = false) :
    l.foldl (matchStep path) true = true := by
  induction l with
  | nil => rfl
  | cons p? rest ih =>
    have hrest : ∀ pp : ParsedPattern, some pp ∈ rest → pp.inc = false →
        patternMatch pp path = false :=
      fun pp hm => h pp (List.mem_cons_of_mem _ hm)
    match p? with
    | none => exact ih hrest
    | some p =>
      have hstep : matchStep path true (some p) = true := by
        by_cases hm : patternMatch p path = true
        · cases hi : p.inc
          · exact absurd hm (by simp [h p (List.mem_cons_self _ _) hi])
          · simp [matchStep, hm, hi]
        · simp [matchStep, Bool.eq_false_iff.mpr hm]
      have : (some p :: rest).foldl (matchStep path) true =
          rest.foldl (matchStep path) (matchStep path true (some p)) := rfl
      rw [this, hstep]
      exact ih hrest

theorem foldl_matchStep_of_no_match (path : List (List Char)) (l : PatternSet) (st : Bool)
    (h : ∀ pp : ParsedPattern, some pp ∈ l → patternMatch pp path = false) :
    l.foldl (matchStep path) st = st := by
  induction l generalizing st with
  | nil => rfl
  | cons p? rest ih =>
    have hrest : ∀ pp : ParsedPattern, some pp ∈ rest → patternMatch pp path = false :=
      fun pp hm => h pp (List.mem_cons_of_mem _ hm)
    match p? with
    | none => exact ih st hrest
    | some p =>
      have hp := h p (List.mem_cons_self _ _)
      have : (some p :: rest).foldl (matchStep path) st =
          rest.foldl (matchStep path) (matchStep path st (some p)) := rfl
      rw [this]
      have hstep : matchStep path st (some p) = st := by simp [matchStep, hp]
      rw [hstep]
      exact ih st hrest

theorem globMatch_lit_refl (s : List Char) (h : ∀ c ∈ s, c ≠ '*' ∧ c ≠ '?') :
    globMatch s s = true := by
  induction s with
  | nil => simp [globMatch]
  | cons c cs ih =>
    have hc := h c (List.mem_cons_self _ _)
    have hstep : globMatch (c :: cs) (c :: cs) =
        ((if c = '?' then true else decide (c = c)) && globMatch cs cs) := by
      simp [globMatch, hc.1]
    rw [hstep]
    simp [ih (fun d hd => h d (List.mem_cons_of_mem _ hd))]

theorem matchSegs_ds_skip (rest : List Seg) (hrest : rest ≠ []) (pre p : List (List Char))
    (h : matchSegs (Seg.ds :: rest) p = true) :
    matchSegs (Seg.ds :: rest) (pre ++ p) = true := by
  induction pre with
  | nil => exact h
  | cons x xs ih =>
    have hstep : matchSegs (Seg.ds :: rest) (x :: (xs ++ p)) =
        (matchSegs rest (x :: (xs ++ p)) || matchSegs (Seg.ds :: rest) (xs ++ p)) := by
      simp [matchSegs, List.isEmpty_eq_false.mpr hrest]
    rw [List.cons_append, hstep, ih, Bool.or_true]

theorem dirPattern_matches (d : List Char) (hd : ∀ c ∈ d, c ≠ '*' ∧ c ≠ '?')
    (pre suf : List (List Char)) (hsuf : suf ≠ []) :
    patternMatch ⟨true, [Seg.ds, Seg.glob d, Seg.ds], false⟩ (pre ++ d :: suf) = true := by
  rcases List.exists_cons_of_ne_nil hsuf with ⟨s₀, t₀, rfl⟩
  have h1 : matchSegs [Seg.glob d, Seg.ds] (d :: s₀ :: t₀) = true := by
    simp [matchSegs, globMatch_lit_refl d hd]
  have hbase : matchSegs (Seg.ds :: [Seg.glob d, Seg.ds]) (d :: s₀ :: t₀) = true := by
    simp [matchSegs, h1]
  have hall := matchSegs_ds_skip [Seg.glob d, Seg.ds] (by simp) pre (d :: s₀ :: t₀) hbase
  simp [patternMatch, hall]

theorem mem_pyIntercalate {c sep : Char} {comps : List (List Char)}
    (h : c ∈ pyIntercalate sep comps) : (∃ l ∈ comps, c ∈ l) ∨ c = sep := by
  induction comps with
  | nil => simp [pyIntercalate] at h
  | cons l rest ih =>
    cases rest with
    | nil =>
      simp [pyIntercalate] at h
      exact Or.inl ⟨l, by simp, h⟩
    | cons l₂ rest₂ =>
      have hh : c ∈ l ++ sep :: pyIntercalate sep (l₂ :: rest₂) := by
        simpa [pyIntercalate] using h
      rcases List.mem_append.mp hh with h1 | h2
      · exact Or.inl ⟨l, by simp, h1⟩
      · rcases List.mem_cons.mp h2 with rfl | h3
        · exact Or.inr rfl
        · rcases ih h3 with ⟨l', hl', hcl'⟩ | rfl
          · exact Or.inl ⟨l', List.mem_cons_of_mem _ hl', hcl'⟩
          · exact Or.inr rfl

/- ### Claim theorems -/

/-- C1: for every root, pattern set and directory snapshot, the result
of gather_files_to_include is exactly the traversal-ordered list of the
entries passing the is_file test whose normalized root-relative path the
matcher does not match; in particular an entry that is a regular file is
included if and only if match_file on its normalized root-relative path
returns false, and included entries appear in traversal order. -/
theorem C1_gather_includes_iff_not_matched
    (sep : Char) (root : List (List Char)) (spec : PatternSet) (snap : List FSEntry) :
    gather_files_to_include sep root spec snap =
      (snap.filter (fun e => isFile e.kind &&
        !(match_file spec (splitSlash (matchedStr sep e.relComps))))).map
        (fun e => (root ++ e.relComps, e.relComps)) ∧
    ∀ e ∈ snap, e.kind = FileKind.regular →
      ((root ++ e.relComps, e.relComps) ∈ gather_files_to_include sep root spec snap ↔
        match_file spec (splitSlash (matchedStr sep e.relComps)) = false) := by
  refine ⟨gather_eq sep root spec snap, ?_⟩
  intro e he hk
  constructor
  · intro hmem
    rcases mem_gather hmem with ⟨e', he', hf', hm', hx'⟩
    have h2 : e.relComps = e'.relComps := by
      have := congrArg Prod.snd hx'
      simpa using this
    rw [h2]
    exact hm'
  · intro hm
    rw [gather_eq]
    refine List.mem_map.mpr ⟨e, List.mem_filter.mpr ⟨he, ?_⟩, rfl⟩
    simp [isFile, hk, hm]

/-- Witness for C1 at a concrete snapshot: the single regular file a.py
under root r with the default pattern set. -/
theorem C1_witness :
    (([toL "r"] ++ [toL "a.py"], [toL "a.py"]) ∈
        gather_files_to_include '/' [toL "r"] (load_gitignore none)
          [⟨[toL "a.py"], FileKind.regular⟩]) ↔
      match_file (load_gitignore none) (splitSlash (matchedStr '/' [toL "a.py"])) = false :=
  (C1_gather_includes_iff_not_matched '/' [toL "r"] (load_gitignore none)
      [⟨[toL "a.py"], FileKind.regular⟩]).2
    ⟨[toL "a.py"], FileKind.regular⟩ (by simp) rfl

/-- C2: the pattern set built by load_gitignore is the user lines (the
empty line list when the ignore file is missing, which is not an error)
compiled one rule per line, followed by exactly four default rules in
order: the directory-only rule for .git (compiled with a leading
double-star so it applies at any depth, and a trailing double-star from
the trailing slash so it matches only paths beneath such a directory),
the same shape for the bytecode-cache directory name, the any-depth
glob rule for files matching star-dot-pyc, and the any-depth exact-name
rule for the OS metadata file name. -/
theorem C2_build_rules :
    load_gitignore none =
      [some ⟨true, [Seg.ds, Seg.glob (toL ".git"), Seg.ds], false⟩,
       some ⟨true, [Seg.ds, Seg.glob (toL "__pycache__"), Seg.ds], false⟩,
       some ⟨true, [Seg.ds, Seg.glob (toL "*.pyc")], true⟩,
       some ⟨true, [Seg.ds, Seg.glob (toL ".DS_Store")], true⟩] ∧
    ∀ c : List Char, load_gitignore (some c) =
      (pyReadlines c).map gitWildParse ++ load_gitignore none := by
  constructor
  · decide
  · intro c
    simp [load_gitignore, from_lines, default_ignores]

/-- C3: a line that is blank (strips to nothing) or a full-line comment
(strips to a line starting with a hash) compiles to no pattern, and
inserting such a line anywhere among the lines leaves every match_file
verdict unchanged. -/
theorem C3_blank_comment_lines_contribute_no_pattern
    (line : List Char) (pre post : List (List Char)) (path : List (List Char))
    (h : stripChars line = [] ∨ (stripChars line).head? = some '#') :
    gitWildParse line = none ∧
    match_file (from_lines (pre ++ line :: post)) path =
      match_file (from_lines (pre ++ post)) path := by
  have hnone : gitWildParse line = none := by
    rcases h with h | h
    · simp [gitWildParse, h]
    · simp [gitWildParse, h]
  refine ⟨hnone, ?_⟩
  unfold match_file from_lines
  rw [List.map_append, List.map_cons, hnone, foldl_matchStep_skip_none, ← List.map_append]

/-- Witness for C3 at a concrete comment line between two rules. -/
theorem C3_witness :
    gitWildParse (toL "# comment") = none ∧
    match_file (from_lines ([toL "*.txt"] ++ toL "# comment" :: [toL "!keep.txt"]))
        [toL "a.txt"] =
      match_file (from_lines ([toL "*.txt"] ++ [toL "!keep.txt"])) [toL "a.txt"] :=
  C3_blank_comment_lines_contribute_no_pattern (toL "# comment")
    [toL "*.txt"] [toL "!keep.txt"] [toL "a.txt"] (Or.inr (by decide))

/-- C4 counterexample: a pattern set containing the directory-only rule
for .git followed by a negated rule does not exclude a file beneath the
matched directory: with the rules .git-slash and bang-dot-git-slash-
config, the file at .git/config gets verdict false (not ignored) from
match_file, because the matcher is last-match-wins, and the file is
therefore present in gather's result, contradicting the claim that
every file beneath the matched directory is excluded for every such
pattern set. -/
theorem C4_counterexample :
    match_file (from_lines [toL ".git/", toL "!.git/config"])
      [toL ".git", toL "config"] = false ∧
    ([toL "r", toL ".git", toL "config"], [toL ".git", toL "config"]) ∈
      gather_files_to_include '/' [toL "r"]
        (from_lines [toL ".git/", toL "!.git/config"])
        [⟨[toL ".git", toL "config"], FileKind.regular⟩] := by
  have hm : match_file (from_lines [toL ".git/", toL "!.git/config"])
      [toL ".git", toL "config"] = false := by
    simp [match_file, from_lines, gitWildParse, stripChars, pyIsSpace, splitSlash,
      anchorNorm, dirNorm, dstar, toSeg, matchStep, patternMatch, matchSegs, globMatch, toL]
  refine ⟨hm, ?_⟩
  simp [gather_files_to_include, relativeTo, isFile, matchedStr, pySepReplace,
    pyIntercalate, match_file, from_lines, gitWildParse, stripChars, pyIsSpace,
    splitSlash, anchorNorm, dirNorm, dstar, toSeg, matchStep, patternMatch,
    matchSegs, globMatch, toL]

/-- C4 amended: a rule compiling to a directory-only pattern for a
literal name matches every path lying beneath a directory of that name
at any nesting depth, so a pattern set containing such a rule gives
verdict true on every such path provided no rule after it is a negation
matching the path (the matcher is last-match-wins, so a later matching
negation re-includes the path, as the counterexample shows); such a
path's entries are then absent from gather's result. -/
theorem C4_amended_dir_pattern_excludes
    (l₁ l₂ : List (List Char)) (rul d : List Char)
    (pre suf path : List (List Char))
    (hd : ∀ c ∈ d, c ≠ '*' ∧ c ≠ '?')
    (hparse : gitWildParse rul = some ⟨true, [Seg.ds, Seg.glob d, Seg.ds], false⟩)
    (hpath : path = pre ++ d :: suf) (hsuf : suf ≠ [])
    (hneg : ∀ pp : ParsedPattern, some pp ∈ from_lines l₂ → pp.inc = false →
      patternMatch pp path = false) :
    match_file (from_lines (l₁ ++ rul :: l₂)) path = true ∧
    ∀ (sep : Char) (root rel : List (List Char)) (snap : List FSEntry),
      splitSlash (matchedStr sep rel) = path →
      (root ++ rel, rel) ∉
        gather_files_to_include sep root (from_lines (l₁ ++ rul :: l₂)) snap := by
  subst hpath
  have hmatch := dirPattern_matches d hd pre suf hsuf
  have htrue : match_file (from_lines (l₁ ++ rul :: l₂)) (pre ++ d :: suf) = true := by
    unfold match_file from_lines
    rw [List.map_append, List.map_cons, hparse, List.foldl_append, List.foldl_cons]
    have hstep : ∀ st : Bool,
        matchStep (pre ++ d :: suf) st
          (some ⟨true, [Seg.ds, Seg.glob d, Seg.ds], false⟩) = true := by
      intro st
      simp [matchStep, hmatch]
    rw [hstep]
    exact foldl_matchStep_stays_true (pre ++ d :: suf) (l₂.map gitWildParse) hneg
  refine ⟨htrue, ?_⟩
  intro sep root rel snap hsplit hmem
  rcases mem_gather hmem with ⟨e, _, _, hm', hx'⟩
  have h2 : rel = e.relComps := by
    have := congrArg Prod.snd hx'
    simpa using this
  rw [← h2, hsplit, htrue] at hm'
  exact Bool.true_eq_false.mp hm'

/-- Witness for C4 amended: the rule .git-slash alone, the file at
.git/config. -/
theorem C4_witness :
    match_file (from_lines [toL ".git/"]) [toL ".git", toL "config"] = true ∧
    ([toL "r"] ++ [toL ".git", toL "config"], [toL ".git", toL "config"]) ∉
      gather_files_to_include '/' [toL "r"] (from_lines [toL ".git/"])
        [⟨[toL ".git", toL "config"], FileKind.regular⟩] :=
  ⟨(C4_amended_dir_pattern_excludes [] [] (toL ".git/") (toL ".git")
      [] [toL "config"] [toL ".git", toL "config"]
      (by decide) (by decide) rfl (by decide)
      (by intro pp hm hinc; simp [from_lines] at hm)).1,
   (C4_amended_dir_pattern_excludes [] [] (toL ".git/") (toL ".git")
      [] [toL "config"] [toL ".git", toL "config"]
      (by decide) (by decide) rfl (by decide)
      (by intro pp hm hinc; simp [from_lines] at hm)).2
     '/' [toL "r"] [toL ".git", toL "config"]
     [⟨[toL ".git", toL "config"], FileKind.regular⟩] (by decide)⟩

/-- C5 counterexample: with the rules build-slash, star-dot-txt and
bang-keep-dot-txt, the file at build/keep.txt lies inside a directory
excluded by a directory rule, yet the later negation re-includes it:
match_file returns false and the file appears in gather's result; the
claim's exception (a negation does not re-include a path inside an
excluded directory) does not hold for this code, which uses plain
last-match-wins matching. -/
theorem C5_counterexample :
    match_file (from_lines [toL "build/", toL "*.txt", toL "!keep.txt"])
      [toL "build", toL "keep.txt"] = false ∧
    ([toL "r", toL "build", toL "keep.txt"], [toL "build", toL "keep.txt"]) ∈
      gather_files_to_include '/' [toL "r"]
        (from_lines [toL "build/", toL "*.txt", toL "!keep.txt"])
        [⟨[toL "build", toL "keep.txt"], FileKind.regular⟩] := by
  have hm : match_file (from_lines [toL "build/", toL "*.txt", toL "!keep.txt"])
      [toL "build", toL "keep.txt"] = false := by
    simp [match_file, from_lines, gitWildParse, stripChars, pyIsSpace, splitSlash,
      anchorNorm, dirNorm, dstar, toSeg, matchStep, patternMatch, matchSegs, globMatch, toL]
  refine ⟨hm, ?_⟩
  simp [gather_files_to_include, relativeTo, isFile, matchedStr, pySepReplace,
    pyIntercalate, match_file, from_lines, gitWildParse, stripChars, pyIsSpace,
    splitSlash, anchorNorm, dirNorm, dstar, toSeg, matchStep, patternMatch,
    matchSegs, globMatch, toL]

/-- C5 amended: when a negated rule appears after a broader excluding
rule and both match a path, the path is re-included by match_file
provided no rule after the negation matches the path; the matcher is
pure last-match-wins, so the negation re-includes the path even when it
lies inside a directory excluded by an earlier directory rule (the
gitwildmatch parent-directory exception is not implemented by the
PathSpec matching the code uses); only a matching rule placed after the
negation can override it. -/
theorem C5_amended_negation_reincludes
    (l₁ l₂ l₃ : List (List Char)) (bl nl : List Char) (bp np : ParsedPattern)
    (path : List (List Char))
    (hb : gitWildParse bl = some bp) (hbi : bp.inc = true)
    (hbm : patternMatch bp path = true)
    (hn : gitWildParse nl = some np) (hni : np.inc = false)
    (hnm : patternMatch np path = true)
    (hpost : ∀ pp : ParsedPattern, some pp ∈ from_lines l₃ → patternMatch pp path = false) :
    match_file (from_lines (l₁ ++ bl :: l₂ ++ nl :: l₃)) path = false := by
  unfold match_file from_lines
  rw [List.map_append, List.map_cons, List.map_append, List.map_cons, hb, hn,
    List.foldl_append, List.foldl_cons, List.foldl_append, List.foldl_cons]
  have hstep : ∀ st : Bool, matchStep path st (some np) = false := by
    intro st
    simp [matchStep, hnm, hni]
  rw [hstep]
  exact foldl_matchStep_of_no_match path (l₃.map gitWildParse) false hpost

/-- Witness for C5 amended at the counterexample's pattern set: the
negation bang-keep-dot-txt after build-slash and star-dot-txt
re-includes build/keep.txt. -/
theorem C5_witness :
    match_file (from_lines ([toL "build/"] ++ toL "*.txt" :: [] ++ toL "!keep.txt" :: []))
      [toL "build", toL "keep.txt"] = false :=
  C5_amended_negation_reincludes [toL "build/"] [] [] (toL "*.txt") (toL "!keep.txt")
    ⟨true, [Seg.ds, Seg.glob (toL "*.txt")], true⟩
    ⟨false, [Seg.ds, Seg.glob (toL "keep.txt")], false⟩
    [toL "build", toL "keep.txt"]
    (by decide) rfl
    (by simp [patternMatch, matchSegs, globMatch, toL])
    (by decide) rfl
    (by simp [patternMatch, matchSegs, globMatch, toL])
    (by intro pp hm; simp [from_lines] at hm)

/-- C6 counterexample: on a platform whose separator is the forward
slash, a file whose name contains a literal backslash (legal in such
filenames) is passed to the matcher as a string containing a backslash:
the replace call only rewrites occurrences of the platform separator. -/
theorem C6_counterexample :
    '\\' ∈ matchedStr '/' [toL "a\\b.txt"] := by decide

/-- C6 amended: the string passed to the matcher never contains the
platform separator other than as a forward slash, and contains no
backslash provided either the separator is the backslash (then every
backslash is rewritten to a forward slash, and backslash-separator
platforms forbid backslashes inside name components anyway) or no name
component contains a literal backslash; a literal backslash inside a
component on a forward-slash platform survives, as the counterexample
shows. -/
theorem C6_amended_no_backslash (sep : Char) (comps : List (List Char))
    (h : sep = '\\' ∨ ∀ c ∈ comps, ('\\' : Char) ∉ c) :
    ('\\' : Char) ∉ matchedStr sep comps := by
  intro hmem
  unfold matchedStr pySepReplace at hmem
  rcases List.mem_map.mp hmem with ⟨c, hc, hcEq⟩
  by_cases hcs : c = sep
  · rw [if_pos hcs] at hcEq
    exact absurd hcEq (by decide)
  · rw [if_neg hcs] at hcEq
    subst hcEq
    rcases h with rfl | h
    · exact hcs rfl
    · rcases mem_pyIntercalate hc with ⟨l, hl, hcl⟩ | rfl
      · exact h l hl hcl
      · exact hcs rfl

/-- Witness for C6 amended: backslash-free components on a
forward-slash platform. -/
theorem C6_witness :
    ('\\' : Char) ∉ matchedStr '/' [toL "sub", toL "f.txt"] :=
  C6_amended_no_backslash '/' [toL "sub", toL "f.txt"] (Or.inr (by decide))

/-- C7 counterexample: gather stores the native relative path, not the
normalized string: on a backslash-separator platform the stored
relative path of sub/f.txt renders as sub-backslash-f.txt, which
contains a backslash and differs from the forward-slash rendering, so
the FileEntry's relative path does not use forward-slash separators
regardless of platform. -/
theorem C7_counterexample :
    gather_files_to_include '\\' [toL "r"] (from_lines [])
        [⟨[toL "sub", toL "f.txt"], FileKind.regular⟩] =
      [([toL "r", toL "sub", toL "f.txt"], [toL "sub", toL "f.txt"])] ∧
    '\\' ∈ pyIntercalate '\\' [toL "sub", toL "f.txt"] ∧
    pyIntercalate '\\' [toL "sub", toL "f.txt"] ≠
      pyIntercalate '/' [toL "sub", toL "f.txt"] := by
  refine ⟨?_, by decide, by decide⟩
  simp [gather_files_to_include, relativeTo, isFile, match_file, from_lines,
    matchedStr, pySepReplace, pyIntercalate, splitSlash, matchStep, toL]

/-- C7 amended: every FileEntry returned by gather carries the
platform-native relative path (the components produced by relative_to);
the forward-slash string is recomputed from it with the separator
replacement at matching time (and again by the renderer), and the entry
was admitted exactly because that normalized string got verdict false
from the matcher; on a backslash-separator platform the stored path's
own rendering uses backslashes, as the counterexample shows. -/
theorem C7_amended_native_relpath (sep : Char) (root : List (List Char))
    (spec : PatternSet) (snap : List FSEntry)
    (x : List (List Char) × List (List Char))
    (hx : x ∈ gather_files_to_include sep root spec snap) :
    match_file spec (splitSlash (pySepReplace sep (pyIntercalate sep x.2))) = false ∧
    ∃ e ∈ snap, x.2 = e.relComps ∧ x.1 = root ++ e.relComps := by
  rcases mem_gather hx with ⟨e, he, hf, hm, hxe⟩
  subst hxe
  exact ⟨by simpa [matchedStr] using hm, e, he, rfl, rfl⟩

/-- Witness for C7 amended at a concrete gather result. -/
theorem C7_witness :
    match_file (from_lines [])
      (splitSlash (pySepReplace '/' (pyIntercalate '/'
        ([toL "r", toL "a.py"], [toL "a.py"]).2))) = false ∧
    ∃ e ∈ [(⟨[toL "a.py"], FileKind.regular⟩ : FSEntry)],
      ([toL "r", toL "a.py"], [toL "a.py"]).2 = e.relComps ∧
      ([toL "r", toL "a.py"], [toL "a.py"]).1 = [toL "r"] ++ e.relComps :=
  C7_amended_native_relpath '/' [toL "r"] (from_lines [])
    [⟨[toL "a.py"], FileKind.regular⟩] ([toL "r", toL "a.py"], [toL "a.py"])
    (by simp [gather_files_to_include, relativeTo, isFile, match_file, from_lines,
      matchedStr, pySepReplace, pyIntercalate, splitSlash, matchStep, toL])

/-- C8 counterexample: a symlink that resolves to a regular file passes
the is_file test (pathlib's is_file follows links) and is emitted by
the walker, contradicting the claim that symlinks are never emitted. -/
theorem C8_counterexample :
    gather_files_to_include '/' [toL "r"] (from_lines [])
        [⟨[toL "link.py"], FileKind.symlink true⟩] =
      [([toL "r", toL "link.py"], [toL "link.py"])] := by
  simp [gather_files_to_include, relativeTo, isFile, match_file, from_lines,
    matchedStr, pySepReplace, pyIntercalate, splitSlash, matchStep, toL]

/-- C8 amended: the walker emits exactly the entries whose is_file test
is true: regular files and symlinks resolving to regular files;
directories (which are only traversed), devices, sockets and broken or
non-file symlinks are never emitted, but a symlink to a regular file
is, as the counterexample shows. -/
theorem C8_amended_only_isfile_emitted (sep : Char) (root : List (List Char))
    (spec : PatternSet) (snap : List FSEntry)
    (x : List (List Char) × List (List Char))
    (hx : x ∈ gather_files_to_include sep root spec snap) :
    (∃ e ∈ snap, isFile e.kind = true ∧ x = (root ++ e.relComps, e.relComps)) ∧
    isFile FileKind.regular = true ∧ isFile (FileKind.symlink true) = true ∧
    isFile FileKind.directory = false ∧ isFile FileKind.device = false ∧
    isFile FileKind.socket = false ∧ isFile (FileKind.symlink false) = false := by
  rcases mem_gather hx with ⟨e, he, hf, hm, hxe⟩
  exact ⟨⟨e, he, hf, hxe⟩, rfl, rfl, rfl, rfl, rfl, rfl⟩

/-- Witness for C8 amended at a concrete gather result. -/
theorem C8_witness :
    (∃ e ∈ [(⟨[toL "a.py"], FileKind.regular⟩ : FSEntry)], isFile e.kind = true ∧
      ([toL "r", toL "a.py"], [toL "a.py"]) = ([toL "r"] ++ e.relComps, e.relComps)) ∧
    isFile FileKind.regular = true ∧ isFile (FileKind.symlink true) = true ∧
    isFile FileKind.directory = false ∧ isFile FileKind.device = false ∧
    isFile FileKind.socket = false ∧ isFile (FileKind.symlink false) = false :=
  C8_amended_only_isfile_emitted '/' [toL "r"] (from_lines [])
    [⟨[toL "a.py"], FileKind.regular⟩] ([toL "r", toL "a.py"], [toL "a.py"])
    (by simp [gather_files_to_include, relativeTo, isFile, match_file, from_lines,
      matchedStr, pySepReplace, pyIntercalate, splitSlash, matchStep, toL])

/-- C9: when the root is not a directory, or when gathering yields no
files (everything ignored or nothing there), the run ends in one of the
two error outcomes and the output document is not produced. -/
theorem C9_error_paths_produce_no_output
    (rootIsDir : Bool) (sep : Char) (root : List (List Char))
    (content : Option (List Char)) (snap : List FSEntry)
    (h : rootIsDir = false ∨
      gather_files_to_include sep root (load_gitignore content) snap = []) :
    producesOutput (mainRun rootIsDir sep root content snap) = false ∧
    (mainRun rootIsDir sep root content snap = MainOutcome.errNotFound ∨
     mainRun rootIsDir sep root content snap = MainOutcome.errNoFiles) := by
  rcases h with rfl | hempty
  · exact ⟨rfl, Or.inl rfl⟩
  · cases rootIsDir
    · exact ⟨rfl, Or.inl rfl⟩
    · simp [mainRun, hempty, producesOutput]

/-- Witness for C9: a missing root directory. -/
theorem C9_witness :
    producesOutput (mainRun false '/' [toL "r"] none []) = false ∧
    (mainRun false '/' [toL "r"] none [] = MainOutcome.errNotFound ∨
     mainRun false '/' [toL "r"] none [] = MainOutcome.errNoFiles) :=
  C9_error_paths_produce_no_output false '/' [toL "r"] none [] (Or.inl rfl)

/-- C10: every pair returned by gather satisfies the round trip: the
absolute path is the root followed by the relative components, and
relative_to applied to the absolute path and the root returns exactly
the stored relative path. -/
theorem C10_abs_rel_roundtrip (sep : Char) (root : List (List Char))
    (spec : PatternSet) (snap : List FSEntry)
    (x : List (List Char) × List (List Char))
    (hx : x ∈ gather_files_to_include sep root spec snap) :
    x.1 = root ++ x.2 ∧ relativeTo x.1 root = some x.2 := by
  rcases mem_gather hx with ⟨e, he, hf, hm, hxe⟩
  subst hxe
  exact ⟨rfl, relativeTo_append root e.relComps⟩

/-- Witness for C10 at a concrete gather result. -/
theorem C10_witness :
    ([toL "r", toL "sub", toL "b.py"], [toL "sub", toL "b.py"]).1 =
      [toL "r"] ++ ([toL "r", toL "sub", toL "b.py"], [toL "sub", toL "b.py"]).2 ∧
    relativeTo ([toL "r", toL "sub", toL "b.py"], [toL "sub", toL "b.py"]).1 [toL "r"] =
      some ([toL "r", toL "sub", toL "b.py"], [toL "sub", toL "b.py"]).2 :=
  C10_abs_rel_roundtrip '/' [toL "r"] (from_lines [])
    [⟨[toL "sub", toL "b.py"], FileKind.regular⟩]
    ([toL "r", toL "sub", toL "b.py"], [toL "sub", toL "b.py"])
    (by simp [gather_files_to_include, relativeTo, isFile, match_file, from_lines,
      matchedStr, pySepReplace, pyIntercalate, splitSlash, matchStep, toL])
